import Mathlib

/-!
Verification development for the data reconciliation and aggregation pipeline
of the monitoring dashboard (source: `auto_table_core.py`).

The definitions below are a shallow embedding of `get_table_data` and its
helpers `load_starlink_df` (post-fetch processing), `_map_calendar_status`,
`_parse_schedule`, `_format_schedule`, the time parsing, sorting, filtering,
statistics and row construction.  Machine behaviour of the Python runtime that
the code relies on (str.strip, str.lower, datetime.strptime with its format
regexes and date validation, pandas stable sort, pandas str.contains with a
regex needle) is modelled explicitly.  The permissive generic date parser
(`pd.to_datetime` fallback, an external library) is a parameter `fb` of the
pipeline, and the regular-expression engine is modelled on the fragment of
patterns actually reasoned about (literal characters and the dot wildcard).
-/

/-- Whitespace characters stripped by Python `str.strip` (ASCII fragment). -/
def isPyWs (c : Char) : Bool :=
  c == ' ' || c == '\t' || c == '\n' || c == '\r' || c == '\x0b' || c == '\x0c'

/-- Model of Python `str.strip`: drop leading and trailing whitespace. -/
def pyStrip (s : String) : String :=
  ⟨((s.data.dropWhile isPyWs).reverse.dropWhile isPyWs).reverse⟩

/-- ASCII lower-casing of a character, as Python `str.lower` on ASCII text. -/
def lc (c : Char) : Char :=
  if 65 ≤ c.toNat ∧ c.toNat ≤ 90 then Char.ofNat (c.toNat + 32) else c

/-- Model of Python `str.lower` (ASCII fragment). -/
def lowerStr (s : String) : String := ⟨s.data.map lc⟩

/-- Does `n` occur at the head of `h` (exact character match)? -/
def leadMatch : List Char → List Char → Bool
  | [], _ => true
  | _ :: _, [] => false
  | a :: as, b :: bs => a == b && leadMatch as bs

/-- Does `n` occur contiguously anywhere inside `h`? -/
def hasSub (n : List Char) : List Char → Bool
  | [] => leadMatch n []
  | c :: cs => leadMatch n (c :: cs) || hasSub n cs

/-- Model of a Python literal substring test `needle in hay`. -/
def pySubstr (needle hay : String) : Bool := hasSub needle.data hay.data

/-- Regex-fragment head match with `IGNORECASE`: a pattern of literal
characters and the dot wildcard, matched against the head of the text.
Literals compare case-insensitively; the dot matches every character except
a newline, as in Python `re`. -/
def patLead : List Char → List Char → Bool
  | [], _ => true
  | _ :: _, [] => false
  | a :: as, b :: bs =>
    (if a == '.' then b != '\n' else lc a == lc b) && patLead as bs

/-- Regex-fragment search at any position in the text. -/
def patFind (p : List Char) : List Char → Bool
  | [] => patLead p []
  | c :: cs => patLead p (c :: cs) || patFind p cs

/-- Model of pandas `Series.str.contains(pat, case=False)` = `re.search` with
`IGNORECASE`, restricted to patterns built from literal characters and the
dot wildcard; other regex metacharacters are outside this model. -/
def reSearchCI (pat hay : String) : Bool :=
  patFind pat.data hay.data

/-- Case-insensitive literal-substring test, the predicate the specification
uses to describe the free-text search. -/
def ciLiteralSubstr (needle hay : String) : Bool :=
  pySubstr (lowerStr needle) (lowerStr hay)

/-- Code-point comparison on characters, as Python string comparison. -/
def cmpChar (a b : Char) : Ordering :=
  if a.toNat < b.toNat then .lt else if b.toNat < a.toNat then .gt else .eq

/-- Lexicographic code-point comparison on character lists. -/
def cmpCharList : List Char → List Char → Ordering
  | [], [] => .eq
  | [], _ :: _ => .lt
  | _ :: _, [] => .gt
  | a :: as, b :: bs => (cmpChar a b).then (cmpCharList as bs)

/-- Model of Python string comparison (lexicographic on code points). -/
def cmpStr (a b : String) : Ordering := cmpCharList a.data b.data

/-- Boolean `a ≤ b` on strings, Python ordering. -/
def strLeB (a b : String) : Bool := cmpStr a b ≠ .gt

/-- Three-way comparison on naturals. -/
def cmpNat (a b : Nat) : Ordering :=
  if a < b then .lt else if b < a then .gt else .eq

/-- A calendar date as parsed from schedule text. -/
structure SDate where
  year : Nat
  month : Nat
  day : Nat
deriving DecidableEq, Repr

/-- Chronological comparison on dates. -/
def cmpDate (a b : SDate) : Ordering :=
  (cmpNat a.year b.year).then ((cmpNat a.month b.month).then (cmpNat a.day b.day))

/-- Comparison on optional keys with the absent value greatest, matching
pandas `na_position="last"`. -/
def cmpOpt (cmp : α → α → Ordering) : Option α → Option α → Ordering
  | none, none => .eq
  | none, some _ => .gt
  | some _, none => .lt
  | some a, some b => cmp a b

/-- Numeric value of an ASCII digit character, if it is one. -/
def digitVal (c : Char) : Option Nat :=
  if c.isDigit then some (c.toNat - 48) else none

/-- Fields accumulated while matching a `strptime` format. -/
structure PF where
  y : Nat := 1900
  m : Nat := 1
  d : Nat := 1
deriving DecidableEq, Repr

/-- Tokens of the `strptime` formats used by the schedule parser. -/
inductive FTok where
  | wsp : FTok
  | lit : Char → FTok
  | dayD : FTok
  | monD : FTok
  | monAbbr : FTok
  | monFull : FTok
  | year4 : FTok
  | year2 : FTok
deriving DecidableEq, Repr

/-- Lower-cased month abbreviations in month order, as the C locale. -/
def abbrevMonths : List String :=
  ["jan", "feb", "mar", "apr", "may", "jun", "jul", "aug", "sep", "oct", "nov", "dec"]

/-- Full month names with month numbers, sorted by length descending as the
`strptime` regex alternation orders them. -/
def fullMonths : List (String × Nat) :=
  [("september", 9), ("november", 11), ("december", 12), ("february", 2),
   ("january", 1), ("october", 10), ("august", 8), ("march", 3), ("april", 4),
   ("june", 6), ("july", 7), ("may", 5)]

/-- Strip a case-insensitive name from the head of the text. -/
def dropLeadCI : List Char → List Char → Option (List Char)
  | [], cs => some cs
  | _ :: _, [] => none
  | a :: as, c :: cs => if lc c == a then dropLeadCI as cs else none

/-- Find the first full month name leading the text, returning its number and
the rest of the text. -/
def findFullMonth : List (String × Nat) → List Char → Option (Nat × List Char)
  | [], _ => none
  | (name, num) :: rest, cs =>
    match dropLeadCI name.data cs with
    | some cs2 => some (num, cs2)
    | none => findFullMonth rest cs

/-- Match a token list against the whole text, Python `strptime` style: each
directive uses the alternatives of its regex in order (with backtracking), a
whitespace token matches a maximal run of whitespace, and the match must
consume the entire text. -/
def matchToks : List FTok → PF → List Char → Option PF
  | [], pf, [] => some pf
  | [], _, _ :: _ => none
  | .lit c :: ts, pf, cs =>
    match cs with
    | c1 :: rest => if c1 == c then matchToks ts pf rest else none
    | [] => none
  | .wsp :: ts, pf, cs =>
    match cs with
    | c1 :: rest =>
      if isPyWs c1 then matchToks ts pf (rest.dropWhile isPyWs) else none
    | [] => none
  | .dayD :: ts, pf, cs =>
    match cs with
    | c1 :: c2 :: rest =>
      match digitVal c1, digitVal c2 with
      | some d1, some d2 =>
        if (d1 == 3 && d2 ≤ 1) || d1 == 1 || d1 == 2 || (d1 == 0 && 1 ≤ d2) then
          match matchToks ts { pf with d := d1 * 10 + d2 } rest with
          | some r => some r
          | none =>
            if 1 ≤ d1 && d1 ≤ 9 then matchToks ts { pf with d := d1 } (c2 :: rest)
            else none
        else
          if 1 ≤ d1 && d1 ≤ 9 then matchToks ts { pf with d := d1 } (c2 :: rest)
          else none
      | some d1, none =>
        if 1 ≤ d1 && d1 ≤ 9 then matchToks ts { pf with d := d1 } (c2 :: rest)
        else none
      | none, _ => none
    | [c1] =>
      match digitVal c1 with
      | some d1 => if 1 ≤ d1 && d1 ≤ 9 then matchToks ts { pf with d := d1 } [] else none
      | none => none
    | [] => none
  | .monD :: ts, pf, cs =>
    match cs with
    | c1 :: c2 :: rest =>
      match digitVal c1, digitVal c2 with
      | some d1, some d2 =>
        if d1 == 1 && d2 ≤ 2 then
          match matchToks ts { pf with m := 10 + d2 } rest with
          | some r => some r
          | none =>
            if 1 ≤ d1 && d1 ≤ 9 then matchToks ts { pf with m := d1 } (c2 :: rest)
            else none
        else if d1 == 0 && 1 ≤ d2 then
          match matchToks ts { pf with m := d2 } rest with
          | some r => some r
          | none => none
        else
          if 1 ≤ d1 && d1 ≤ 9 then matchToks ts { pf with m := d1 } (c2 :: rest)
          else none
      | some d1, none =>
        if 1 ≤ d1 && d1 ≤ 9 then matchToks ts { pf with m := d1 } (c2 :: rest)
        else none
      | none, _ => none
    | [c1] =>
      match digitVal c1 with
      | some d1 => if 1 ≤ d1 && d1 ≤ 9 then matchToks ts { pf with m := d1 } [] else none
      | none => none
    | [] => none
  | .monAbbr :: ts, pf, cs =>
    match cs with
    | c1 :: c2 :: c3 :: rest =>
      match abbrevMonths.findIdx? (fun s => s == (⟨[lc c1, lc c2, lc c3]⟩ : String)) with
      | some i => matchToks ts { pf with m := i + 1 } rest
      | none => none
    | _ => none
  | .monFull :: ts, pf, cs =>
    match findFullMonth fullMonths cs with
    | some (num, rest) => matchToks ts { pf with m := num } rest
    | none => none
  | .year4 :: ts, pf, cs =>
    match cs with
    | a :: b :: c :: d :: rest =>
      match digitVal a, digitVal b, digitVal c, digitVal d with
      | some x1, some x2, some x3, some x4 =>
        matchToks ts { pf with y := x1 * 1000 + x2 * 100 + x3 * 10 + x4 } rest
      | _, _, _, _ => none
    | _ => none
  | .year2 :: ts, pf, cs =>
    match cs with
    | a :: b :: rest =>
      match digitVal a, digitVal b with
      | some x1, some x2 =>
        let yy := x1 * 10 + x2
        matchToks ts { pf with y := if yy ≤ 68 then 2000 + yy else 1900 + yy } rest
      | _, _ => none
    | _ => none

/-- Days in a month, with Gregorian leap years, as `datetime` validity. -/
def daysInMonth (y m : Nat) : Nat :=
  if m == 2 then
    if y % 4 == 0 && (y % 100 != 0 || y % 400 == 0) then 29 else 28
  else if m == 4 || m == 6 || m == 9 || m == 11 then 30
  else 31

/-- Construct a valid date from matched fields, as the `datetime` constructor:
an out-of-range combination is rejected. -/
def mkDate (pf : PF) : Option SDate :=
  if 1 ≤ pf.y ∧ pf.y ≤ 9999 ∧ 1 ≤ pf.m ∧ pf.m ≤ 12 ∧ 1 ≤ pf.d ∧ pf.d ≤ daysInMonth pf.y pf.m
  then some ⟨pf.y, pf.m, pf.d⟩ else none

/-- Model of `datetime.strptime(s, fmt)` for one format: regex match of the
whole string, then date validation; a failure of either is `none`. -/
def strptimeDate (fmt : List FTok) (s : String) : Option SDate :=
  (matchToks fmt {} s.data).bind mkDate

/-- Format `"%b %d, %Y"`. -/
def fmtAbbrDY : List FTok := [.monAbbr, .wsp, .dayD, .lit ',', .wsp, .year4]

/-- Format `"%b. %d, %Y"`. -/
def fmtAbbrDotDY : List FTok := [.monAbbr, .lit '.', .wsp, .dayD, .lit ',', .wsp, .year4]

/-- Format `"%B %d, %Y"`. -/
def fmtFullDY : List FTok := [.monFull, .wsp, .dayD, .lit ',', .wsp, .year4]

/-- Format `"%d-%b-%y"`. -/
def fmtDAbbrY2 : List FTok := [.dayD, .lit '-', .monAbbr, .lit '-', .year2]

/-- Format `"%d-%b-%Y"`. -/
def fmtDAbbrY4 : List FTok := [.dayD, .lit '-', .monAbbr, .lit '-', .year4]

/-- Format `"%m/%d/%y"`. -/
def fmtMDY2 : List FTok := [.monD, .lit '/', .dayD, .lit '/', .year2]

/-- Format `"%m/%d/%Y"`. -/
def fmtMDY4 : List FTok := [.monD, .lit '/', .dayD, .lit '/', .year4]

/-- Format `"%d/%m/%y"`. -/
def fmtDMY2 : List FTok := [.dayD, .lit '/', .monD, .lit '/', .year2]

/-- Format `"%d/%m/%Y"`. -/
def fmtDMY4 : List FTok := [.dayD, .lit '/', .monD, .lit '/', .year4]

/-- The explicit formats `_parse_schedule` attempts, in source order. -/
def scheduleFormats : List (List FTok) :=
  [fmtAbbrDY, fmtAbbrDotDY, fmtFullDY, fmtDAbbrY2, fmtDAbbrY4,
   fmtMDY2, fmtMDY4, fmtDMY2, fmtDMY4]

/-- First successful parse among a list of formats, in order. -/
def firstParse (fmts : List (List FTok)) (v : String) : Option SDate :=
  match fmts with
  | [] => none
  | f :: fs =>
    match strptimeDate f v with
    | some d => some d
    | none => firstParse fs v

/-- Model of `_parse_schedule`: strip, empty gives absent, try the explicit
formats in order, fall back to the permissive generic parser `fb`
(`pd.to_datetime` with exceptions resolved to absent). -/
def parseSchedule (fb : String → Option SDate) (val : String) : Option SDate :=
  let v := pyStrip val
  if v = "" then none
  else
    match firstParse scheduleFormats v with
    | some d => some d
    | none => fb v

/-- Model of `pd.to_datetime(x, format="%I:%M %p", errors="coerce")` applied
to one value: a 12-hour clock time, returned as minutes after midnight;
failure is absent. -/
def parseTime12 (s : String) : Option Nat :=
  let withHour : Nat → List Char → Option Nat := fun h cs =>
    match cs with
    | ':' :: rest =>
      let withMin : Nat → List Char → Option Nat := fun mi cs2 =>
        match cs2 with
        | c1 :: rest2 =>
          if isPyWs c1 then
            match rest2.dropWhile isPyWs with
            | [p1, p2] =>
              if lc p1 == 'a' && lc p2 == 'm' then
                some (((if h == 12 then 0 else h) * 60) + mi)
              else if lc p1 == 'p' && lc p2 == 'm' then
                some (((if h == 12 then 12 else h + 12) * 60) + mi)
              else none
            | _ => none
          else none
        | [] => none
      match rest with
      | c1 :: c2 :: rest2 =>
        match digitVal c1, digitVal c2 with
        | some m1, some m2 =>
          if m1 ≤ 5 then
            match withMin (m1 * 10 + m2) rest2 with
            | some r => some r
            | none => withMin m1 (c2 :: rest2)
          else withMin m1 (c2 :: rest2)
        | some m1, none => withMin m1 (c2 :: rest2)
        | none, _ => none
      | [c1] =>
        match digitVal c1 with
        | some m1 => withMin m1 []
        | none => none
      | [] => none
    | _ => none
  match s.data with
  | c1 :: c2 :: rest =>
    match digitVal c1, digitVal c2 with
    | some d1, some d2 =>
      if d1 == 1 && d2 ≤ 2 then
        match withHour (10 + d2) rest with
        | some r => some r
        | none => withHour d1 (c2 :: rest)
      else if d1 == 0 && 1 ≤ d2 then withHour d2 rest
      else if 1 ≤ d1 && d1 ≤ 9 then withHour d1 (c2 :: rest)
      else none
    | some d1, none =>
      if 1 ≤ d1 && d1 ≤ 9 then withHour d1 (c2 :: rest) else none
    | none, _ => none
  | [c1] =>
    match digitVal c1 with
    | some _ => none
    | none => none
  | [] => none

/-- Capitalised three-letter month abbreviation, as `strftime "%b"`. -/
def monthAbbrCap (m : Nat) : String :=
  match m with
  | 1 => "Jan" | 2 => "Feb" | 3 => "Mar" | 4 => "Apr" | 5 => "May" | 6 => "Jun"
  | 7 => "Jul" | 8 => "Aug" | 9 => "Sep" | 10 => "Oct" | 11 => "Nov" | 12 => "Dec"
  | _ => ""

/-- Zero-padded two-digit rendering, as `strftime "%d"`. -/
def pad2 (n : Nat) : String :=
  if n < 10 then "0" ++ toString n else toString n

/-- Zero-padded four-digit rendering, as `strftime "%Y"`. -/
def pad4 (n : Nat) : String :=
  if n < 10 then "000" ++ toString n
  else if n < 100 then "00" ++ toString n
  else if n < 1000 then "0" ++ toString n
  else toString n

/-- Canonical display of a date, `strftime("%b. %d, %Y")`. -/
def strftimeDisplay (d : SDate) : String :=
  monthAbbrCap d.month ++ ". " ++ pad2 d.day ++ ", " ++ pad4 d.year

/-- Model of `_format_schedule`: display the start date (formatted when
parsed, else the raw text), then `" - "` and the end date (a dash when
absent). An empty start yields the empty display. -/
def formatScheduleRow (fb : String → Option SDate) (schedule scheduleEnd : String)
    (ssort : Option SDate) : String :=
  let startText := match ssort with
    | some d => strftimeDisplay d
    | none => schedule
  let endRaw := pyStrip scheduleEnd
  let endText :=
    if endRaw = "" then "-"
    else match parseSchedule fb endRaw with
      | some d => strftimeDisplay d
      | none => endRaw
  if startText = "" then "" else startText ++ " - " ++ endText

/-- Model of `_map_calendar_status`: empty gives empty, the exact value
`"Invite Sent"` gives `"Sent"`, any other non-empty value gives
`"Invite Not Sent"`. -/
def mapCalendarStatus (val : String) : String :=
  let v := pyStrip val
  if v = "" then "" else if v = "Invite Sent" then "Sent" else "Invite Not Sent"







/-- A row of the auxiliary (Starlink) sheet after loading: key, activation
status, approval text. -/
structure StarRow where
  beis : String
  activation : String
  approval : String
deriving DecidableEq, Repr

/-- Strip the three fields of an auxiliary row, as `load_starlink_df`. -/
def stripStar (s : StarRow) : StarRow :=
  ⟨pyStrip s.beis, pyStrip s.activation, pyStrip s.approval⟩

/-- Model of `drop_duplicates(subset=["BEIS School ID"], keep="last")`: a row
is kept exactly when no later row carries the same key, preserving order. -/
def dedupKeepLast : List StarRow → List StarRow
  | [] => []
  | r :: rs =>
    if rs.any (fun s => s.beis == r.beis) then dedupKeepLast rs
    else r :: dedupKeepLast rs

/-- Post-fetch processing of `load_starlink_df`: strip all fields, drop rows
whose key is empty, and deduplicate keys keeping the last occurrence. -/
def processStar (l : List StarRow) : List StarRow :=
  dedupKeepLast ((l.map stripStar).filter (fun s => s.beis ≠ ""))

/-- A row of the main sheet after `load_main_df` (the loader also strips the
text fields; the pipeline re-strips where the source does). -/
structure MainRow where
  region : String
  division : String
  province : String
  beis : String
  scheduleRaw : String
  scheduleEndRaw : String
  startTime : String
  endTime : String
  outcome : String
  blocker : String
  calendarRaw : String
  finalStatus : String
  validated : String
deriving DecidableEq, Repr

/-- The loaded main table: rows plus presence flags for the optional
`Final Status` and `Validated?` columns. -/
structure MainTable where
  rows : List MainRow
  hasFinal : Bool
  hasValidated : Bool
deriving DecidableEq, Repr

/-- A row of the merged frame with the derived columns `get_table_data`
computes: `Starlink Status`, `Approval (Accepted / Decline) `,
`Installation Status`, `Calendar Status`, `Schedule`, `Schedule_sort`,
`Start_sort`, `End_sort`, `Schedule_display`. -/
structure XRow where
  region : String
  division : String
  province : String
  beis : String
  startTime : String
  endTime : String
  installation : String
  blocker : String
  calendarStatus : String
  finalStatus : String
  validated : String
  starlink : String
  approval : String
  schedule : String
  scheduleEnd : String
  scheduleDisplay : String
  scheduleSort : Option SDate
  startSort : Option Nat
  endSort : Option Nat
deriving DecidableEq, Repr

/-- Build one merged row from a main row and its auxiliary match (empty
strings when unmatched), computing every derived column. -/
def mkXRow (fb : String → Option SDate) (m : MainRow) (act appr : String) : XRow :=
  let sched := pyStrip m.scheduleRaw
  let ssort := parseSchedule fb sched
  let send := pyStrip m.scheduleEndRaw
  { region := m.region
    division := m.division
    province := m.province
    beis := m.beis
    startTime := m.startTime
    endTime := m.endTime
    installation := m.outcome
    blocker := m.blocker
    calendarStatus := mapCalendarStatus m.calendarRaw
    finalStatus := m.finalStatus
    validated := m.validated
    starlink := act
    approval := appr
    schedule := sched
    scheduleEnd := send
    scheduleDisplay := formatScheduleRow fb sched send ssort
    scheduleSort := ssort
    startSort := parseTime12 m.startTime
    endSort := parseTime12 m.endTime }

/-- The left join of the main rows with the processed auxiliary rows on the
key column: with a non-empty auxiliary set, each main row takes the fields of
its unique key match (empty when unmatched); with an empty auxiliary set,
every auxiliary field is empty. -/
def mergedRows (fb : String → Option SDate) (main : List MainRow)
    (starP : List StarRow) : List XRow :=
  if starP.isEmpty then main.map (fun m => mkXRow fb m "" "")
  else
    main.map (fun m =>
      match starP.find? (fun s => s.beis == m.beis) with
      | some s => mkXRow fb m s.activation s.approval
      | none => mkXRow fb m "" "")

/-- The six-component sort key of a merged row. -/
def sortKey (r : XRow) : Option SDate × Option Nat × Option Nat × String × String × String :=
  (r.scheduleSort, r.startSort, r.endSort, r.region, r.province, r.beis)

/-- Lexicographic comparison on the sort key, absent values last. -/
def rowCmp (a b : XRow) : Ordering :=
  (cmpOpt cmpDate a.scheduleSort b.scheduleSort).then
    ((cmpOpt cmpNat a.startSort b.startSort).then
      ((cmpOpt cmpNat a.endSort b.endSort).then
        ((cmpStr a.region b.region).then
          ((cmpStr a.province b.province).then (cmpStr a.beis b.beis)))))

/-- Boolean order used by the stable sort. -/
def rowLe (a b : XRow) : Bool := rowCmp a b ≠ .gt

/-- Stable insertion of one element: it goes before the first element it is
less-or-equal to, hence after all earlier-inserted equal elements stay in
front of later ones inserted above them, and before equal elements inserted
below. -/
def insertLe (le : α → α → Bool) (a : α) : List α → List α
  | [] => [a]
  | b :: bs => if le a b then a :: b :: bs else b :: insertLe le a bs

/-- Stable insertion sort, the model of `sort_values(kind="stable")`: for a
total preorder it produces the unique stable sorted arrangement. -/
def insSort (le : α → α → Bool) : List α → List α
  | [] => []
  | a :: as => insertLe le a (insSort le as)

/-- The sort step of `get_table_data` (line 298): stable sort by schedule
date, start time, end time, region, province, key. -/
def sortRows (l : List XRow) : List XRow := insSort rowLe l

/-- Deduplication keeping the first occurrence, as pandas `unique` and
`drop_duplicates`. -/
def dedupFirstAux [BEq α] (seen : List α) : List α → List α
  | [] => []
  | a :: as =>
    if seen.contains a then dedupFirstAux seen as
    else a :: dedupFirstAux (a :: seen) as

/-- Deduplication keeping the first occurrence. -/
def dedupFirst [BEq α] (l : List α) : List α := dedupFirstAux [] l

/-- Stable sort of strings in Python order, as `sorted`. -/
def sortStrings (l : List String) : List String := insSort strLeB l

/-- The hardcoded lot-to-region map; an unknown lot name is no filter. -/
def lotRegions (lot : String) : Option (List String) :=
  if lot = "Lot #1" then
    some ["Region I", "Region II", "Region III", "Region IV-A", "Region IV-B",
          "MIMAROPA", "Region V", "CAR"]
  else if lot = "Lot #2" then
    some ["Region VI", "Region VII", "Region VIII", "NIR"]
  else if lot = "Lot #3" then
    some ["Region IX", "Region X", "Region XI", "Region XII", "Region CARAGA"]
  else none

/-- The five filter-option lists returned to the dashboard. -/
structure OptLists where
  regionOptions : List String
  scheduleOptions : List String
  installationOptions : List String
  finalOptions : List String
  validatedOptions : List String
deriving DecidableEq, Repr

/-- Comparison for the schedule-option ordering: by parsed date with absent
last, then by display string. -/
def schedPairLe (a b : String × Option SDate) : Bool :=
  ((cmpOpt cmpDate a.2 b.2).then (cmpStr a.1 b.1)) ≠ .gt

/-- Option lists, computed from the rows after the unscheduled and lot
filters but before any interactive filter, as in the source. -/
def computeOptions (hasFinal hasValidated : Bool) (l : List XRow) : OptLists :=
  { regionOptions :=
      sortStrings ((dedupFirst (l.map (·.region))).filter (fun r => pyStrip r ≠ ""))
    scheduleOptions :=
      ((insSort schedPairLe
        (dedupFirst (l.map (fun r => (r.scheduleDisplay, r.scheduleSort))))).map
          Prod.fst).filter (fun s => s ≠ "")
    installationOptions :=
      sortStrings (dedupFirst ((l.map (fun r => pyStrip r.installation)).filter
        (fun s => s ≠ "")))
    finalOptions :=
      if hasFinal then
        sortStrings (dedupFirst ((l.map (fun r => pyStrip r.finalStatus)).filter
          (fun s => s ≠ "")))
      else []
    validatedOptions :=
      if hasValidated then
        sortStrings (dedupFirst ((l.map (fun r => pyStrip r.validated)).filter
          (fun s => s ≠ "")))
      else [] }

/-- The arguments of `get_table_data`; empty string and empty list stand for
the absent (falsy) Python arguments. -/
structure Args where
  region : String := ""
  schedules : List String := []
  installation : String := ""
  tile : String := ""
  lot : String := ""
  finalStatus : String := ""
  validated : String := ""
  includeUnscheduled : Bool := false
  search : String := ""
deriving DecidableEq, Repr

/-- The free-text search predicate over one row: the needle is handed to the
regex engine with IGNORECASE against each present column of the fixed list,
and the row matches when any column matches. -/
def rowSearchMatch (hasApproval hasFinal hasValidated : Bool) (needle : String)
    (r : XRow) : Bool :=
  reSearchCI needle r.region || reSearchCI needle r.province ||
  reSearchCI needle r.beis || reSearchCI needle r.scheduleDisplay ||
  reSearchCI needle r.installation || reSearchCI needle r.starlink ||
  (hasApproval && reSearchCI needle r.approval) ||
  (hasFinal && reSearchCI needle r.finalStatus) ||
  (hasValidated && reSearchCI needle r.validated) ||
  reSearchCI needle r.blocker

/-- The free-text search filter (lines 413-437). -/
def applySearch (hasApproval hasFinal hasValidated : Bool) (needle : String)
    (l : List XRow) : List XRow :=
  l.filter (rowSearchMatch hasApproval hasFinal hasValidated needle)

/-- The interactive filters, in source order: region, schedule, installation
(with the blank sentinel), final status, validated, free-text search. -/
def applyInteractive (hasApproval hasFinal hasValidated : Bool) (a : Args)
    (l : List XRow) : List XRow :=
  let f1 := if a.region ≠ "" then l.filter (fun r => r.region == a.region) else l
  let f2 := if a.schedules ≠ [] then
      f1.filter (fun r => a.schedules.contains r.scheduleDisplay)
    else f1
  let f3 := if a.installation ≠ "" then
      if a.installation = "__blank__" then
        f2.filter (fun r => pyStrip r.installation == "")
      else f2.filter (fun r => r.installation == a.installation)
    else f2
  let f4 := if a.finalStatus ≠ "" && hasFinal then
      f3.filter (fun r => r.finalStatus == a.finalStatus)
    else f3
  let f5 := if a.validated ≠ "" && hasValidated then
      f4.filter (fun r => r.validated == a.validated)
    else f4
  if pyStrip a.search ≠ "" then
    applySearch hasApproval hasFinal hasValidated (pyStrip a.search) f5
  else f5

/-- The accepted mask of the approval classification (line 543): the lowered
stripped approval text contains `"accept"`. -/
def approvalAccepted (raw : String) : Bool :=
  pySubstr "accept" (lowerStr (pyStrip raw))

/-- The decline mask of the approval classification (line 544): the lowered
stripped approval text contains `"declin"`. -/
def approvalDeclined (raw : String) : Bool :=
  pySubstr "declin" (lowerStr (pyStrip raw))

/-- The activation mask (line 536): the lowered stripped activation status is
exactly `"activated"`. -/
def starActivatedMask (r : XRow) : Bool :=
  lowerStr (pyStrip r.starlink) == "activated"

/-- The accepted mask on a row. -/
def apprAcceptMask (r : XRow) : Bool := approvalAccepted r.approval

/-- The decline mask on a row. -/
def apprDeclineMask (r : XRow) : Bool := approvalDeclined r.approval

/-- The tile drill-down masks (lines 481-511); an unrecognized non-empty tile
is an all-true mask, and an empty tile applies no filter. -/
def applyTile (tile : String) (l : List XRow) : List XRow :=
  if tile = "" then l
  else if tile = "star_activated" then l.filter starActivatedMask
  else if tile = "star_not_activated" then
    l.filter (fun r => !starActivatedMask r)
  else if tile = "approval_accepted" then l.filter apprAcceptMask
  else if tile = "approval_pending" then
    l.filter (fun r => !apprAcceptMask r && !apprDeclineMask r)
  else if tile = "approval_decline" then l.filter apprDeclineMask
  else if tile = "calendar_sent" then
    l.filter (fun r => lowerStr (pyStrip r.calendarStatus) == "sent")
  else if tile = "calendar_not_sent" then
    l.filter (fun r => lowerStr (pyStrip r.calendarStatus) == "invite not sent")
  else if tile = "s1_success" then
    l.filter (fun r => lowerStr (pyStrip r.installation) == "s1 - installed (success)")
  else if tile = "unscheduled" then
    l.filter (fun r => pyStrip r.schedule == "")
  else l

/-- The aggregate statistics object; counts are Python integers. -/
structure Stats where
  active : Bool
  star_activated : Int
  star_not_activated : Int
  approval_accepted : Int
  approval_pending : Int
  approval_decline : Int
  calendar_sent : Int
  calendar_not_sent : Int
  s1_success : Int
  scheduled : Int
  unscheduled : Int
deriving DecidableEq, Repr

/-- The all-zero statistics with the inactive flag. -/
def zeroStats : Stats :=
  { active := false, star_activated := 0, star_not_activated := 0,
    approval_accepted := 0, approval_pending := 0, approval_decline := 0,
    calendar_sent := 0, calendar_not_sent := 0, s1_success := 0,
    scheduled := 0, unscheduled := 0 }

/-- Count of rows satisfying a mask, as `mask.sum()`. -/
def countRows (l : List XRow) (p : XRow → Bool) : Int := ((l.filter p).length : Int)

/-- The statistics computed over the final filtered row set (lines 533-585):
activation counted by exact lowered match, approval by the two substring
masks with pending as the remainder, calendar and installation by exact
lowered match, and the scheduled split by emptiness of the schedule text. -/
def computeStats (l : List XRow) : Stats :=
  let total : Int := (l.length : Int)
  let sa := countRows l starActivatedMask
  let acc := countRows l apprAcceptMask
  let dec := countRows l apprDeclineMask
  let unsched := countRows l (fun r => pyStrip r.schedule == "")
  { active := true
    star_activated := sa
    star_not_activated := total - sa
    approval_accepted := acc
    approval_decline := dec
    approval_pending := total - acc - dec
    calendar_sent := countRows l (fun r => lowerStr (pyStrip r.calendarStatus) == "sent")
    calendar_not_sent :=
      countRows l (fun r => lowerStr (pyStrip r.calendarStatus) == "invite not sent")
    s1_success :=
      countRows l (fun r => lowerStr (pyStrip r.installation) == "s1 - installed (success)")
    scheduled := total - unsched
    unscheduled := unsched }

/-- One returned row mapping (lines 612-629). -/
structure RowOut where
  region : String
  division : String
  province : String
  beis : String
  schedule : String
  calendarStatus : String
  startTime : String
  endTime : String
  installation : String
  starlink : String
  approval : String
  finalStatus : String
  validated : String
  blocker : String
deriving DecidableEq, Repr

/-- Build one returned row: blank approval text displays as `"Pending"`, the
schedule field carries the display string, and absent optional columns read
as empty via `row.get`. -/
def mkRowOut (hasApproval hasFinal hasValidated : Bool) (r : XRow) : RowOut :=
  let apprText := pyStrip (if hasApproval then r.approval else "")
  { region := r.region
    division := r.division
    province := r.province
    beis := r.beis
    schedule := r.scheduleDisplay
    calendarStatus := r.calendarStatus
    startTime := r.startTime
    endTime := r.endTime
    installation := r.installation
    starlink := r.starlink
    approval := if apprText = "" then "Pending" else apprText
    finalStatus := if hasFinal then r.finalStatus else ""
    validated := if hasValidated then r.validated else ""
    blocker := r.blocker }

/-- The returned row list over the final filtered set. -/
def buildRows (hasApproval hasFinal hasValidated : Bool) (l : List XRow) : List RowOut :=
  l.map (mkRowOut hasApproval hasFinal hasValidated)

/-- The full return value of `get_table_data`. -/
structure Output where
  rows : List RowOut
  opts : OptLists
  stats : Stats
deriving DecidableEq, Repr

/-- The empty return value used when the main table is empty. -/
def emptyOutput : Output :=
  ⟨[], ⟨[], [], [], [], []⟩, zeroStats⟩

/-- The error raised by indexing a missing dataframe column. -/
def approvalKeyError : String := "KeyError: Approval (Accepted / Decline) "

/-- The rows after merging, the unscheduled filter, the stable sort and the
lot filter: the data from which option lists are computed.  It depends only
on the loaded data, `include_unscheduled` and the lot. -/
def baseRows (fb : String → Option SDate) (main : MainTable) (star : List StarRow)
    (includeUnscheduled : Bool) (lot : String) : List XRow :=
  let merged := mergedRows fb main.rows (processStar star)
  let afterUnsched :=
    if includeUnscheduled then merged else merged.filter (fun r => r.schedule ≠ "")
  let sorted := sortRows afterUnsched
  match lotRegions (pyStrip lot) with
  | some regs => sorted.filter (fun r => regs.contains r.region)
  | none => sorted

/-- Model of `get_table_data`, from the loaded tables to the returned rows,
option lists and statistics; the `Except` error is the uncaught `KeyError`
raised when the statistics index the approval column while the auxiliary set
is empty. -/
def getTableData (fb : String → Option SDate) (main : MainTable)
    (star : List StarRow) (a : Args) : Except String Output :=
  if main.rows.isEmpty then .ok emptyOutput
  else
    let hasApproval := !(processStar star).isEmpty
    let base := baseRows fb main star a.includeUnscheduled a.lot
    let opts := computeOptions main.hasFinal main.hasValidated base
    let f6 := applyInteractive hasApproval main.hasFinal main.hasValidated a base
    if f6.isEmpty then .ok ⟨[], opts, zeroStats⟩
    else if !hasApproval then .error approvalKeyError
    else
      let f7 := applyTile (pyStrip a.tile) f6
      if f7.isEmpty then .ok ⟨[], opts, zeroStats⟩
      else .ok ⟨buildRows hasApproval main.hasFinal main.hasValidated f7, opts,
                computeStats f7⟩

/-- Rows of a pipeline result, empty on error. -/
def rowsOf : Except String Output → List RowOut
  | .ok o => o.rows
  | .error _ => []

/-- Statistics of a pipeline result, zero on error. -/
def statsOf : Except String Output → Stats
  | .ok o => o.stats
  | .error _ => zeroStats

/-- Option lists of a pipeline result, empty on error. -/
def optsOf : Except String Output → OptLists
  | .ok o => o.opts
  | .error _ => ⟨[], [], [], [], []⟩

/-- The regex metacharacters of Python `re`. -/
def regexMetaChars : List Char :=
  ['.', '^', '$', '*', '+', '?', '{', '}', '[', ']', '(', ')', '|', '\\']

/-- A string free of regex metacharacters, hence a regex matching only its
literal self. -/
def noMeta (s : String) : Bool := s.data.all (fun c => !regexMetaChars.contains c)

/-- The search predicate as the specification words it: a case-insensitive
literal substring test against the listed fields that are present. -/
def specSearchMatch (hasApproval hasFinal hasValidated : Bool) (needle : String)
    (r : XRow) : Bool :=
  ciLiteralSubstr needle r.region || ciLiteralSubstr needle r.province ||
  ciLiteralSubstr needle r.beis || ciLiteralSubstr needle r.scheduleDisplay ||
  ciLiteralSubstr needle r.installation || ciLiteralSubstr needle r.starlink ||
  (hasApproval && ciLiteralSubstr needle r.approval) ||
  (hasFinal && ciLiteralSubstr needle r.finalStatus) ||
  (hasValidated && ciLiteralSubstr needle r.validated) ||
  ciLiteralSubstr needle r.blocker

/-- The always-absent fallback parser, used to instantiate the pipeline on
concrete inputs whose schedule text the explicit formats settle. -/
def fb0 : String → Option SDate := fun _ => none

/-- Default (all-absent) arguments of `get_table_data`. -/
def argsD : Args := {}

/-- A scheduled main row used by the concrete evaluations. -/
def mrow1 : MainRow :=
  { region := "Region I", division := "Div A", province := "Ilocos Norte",
    beis := "100001", scheduleRaw := "02/04/2026", scheduleEndRaw := "",
    startTime := "", endTime := "", outcome := "", blocker := "",
    calendarRaw := "", finalStatus := "", validated := "" }

/-- A one-row main table with every required column present. -/
def mainC1 : MainTable := ⟨[mrow1], false, false⟩

/-- An auxiliary set whose single row matches `mrow1` with blank statuses. -/
def starC2 : List StarRow := [⟨"100001", "", ""⟩]

/-- An auxiliary set whose approval text contains both classifier needles. -/
def starC3 : List StarRow := [⟨"100001", "x", "Accepted but Declined"⟩]

/-- A main row whose schedule text no explicit format parses and none of
whose searched fields contains a literal dot. -/
def mrowC4 : MainRow :=
  { region := "Region I", division := "Div A", province := "Ilocos Norte",
    beis := "100001", scheduleRaw := "soon", scheduleEndRaw := "",
    startTime := "", endTime := "", outcome := "", blocker := "",
    calendarRaw := "", finalStatus := "", validated := "" }

/-- The one-row main table of the search counterexample. -/
def mainC4 : MainTable := ⟨[mrowC4], false, false⟩

/-- The laws a comparison must satisfy for the sort order to be a total
preorder: swap-symmetry and the four transitivity combinations. -/
structure CmpLaws (c : α → α → Ordering) : Prop where
  symm : ∀ a b, c a b = (c b a).swap
  lt_trans : ∀ a b d, c a b = .lt → c b d = .lt → c a d = .lt
  eq_trans : ∀ a b d, c a b = .eq → c b d = .eq → c a d = .eq
  eq_lt : ∀ a b d, c a b = .eq → c b d = .lt → c a d = .lt
  lt_eq : ∀ a b d, c a b = .lt → c b d = .eq → c a d = .lt

theorem then_eq_lt {x y : Ordering} : x.then y = .lt ↔ x = .lt ∨ (x = .eq ∧ y = .lt) := by
  cases x <;> simp [Ordering.then]

theorem then_eq_eq {x y : Ordering} : x.then y = .eq ↔ x = .eq ∧ y = .eq := by
  cases x <;> simp [Ordering.then]

theorem swap_then (x y : Ordering) : (x.then y).swap = x.swap.then y.swap := by
  cases x <;> simp [Ordering.then, Ordering.swap]

theorem cmpLaws_refl {c : α → α → Ordering} (h : CmpLaws c) (a : α) : c a a = .eq := by
  have hs := h.symm a a
  cases hx : c a a
  · rw [hx] at hs
    simp [Ordering.swap] at hs
  · rfl
  · rw [hx] at hs
    simp [Ordering.swap] at hs

theorem cmpNat_char (a b : Nat) :
    (a < b → cmpNat a b = .lt) ∧ (b < a → cmpNat a b = .gt) ∧ (a = b → cmpNat a b = .eq) := by
  unfold cmpNat
  refine ⟨fun h => ?_, fun h => ?_, fun h => ?_⟩ <;> (split <;> try split) <;>
    first | rfl | omega

theorem cmpNat_inv (a b : Nat) :
    (cmpNat a b = .lt → a < b) ∧ (cmpNat a b = .gt → b < a) ∧ (cmpNat a b = .eq → a = b) := by
  unfold cmpNat
  refine ⟨fun h => ?_, fun h => ?_, fun h => ?_⟩ <;> (split at h <;> try split at h) <;>
    first | omega | simp_all

theorem cmpLaws_nat : CmpLaws cmpNat := by
  constructor
  · intro a b
    rcases Nat.lt_trichotomy a b with h | h | h
    · rw [(cmpNat_char a b).1 h, (cmpNat_char b a).2.1 h]; rfl
    · rw [(cmpNat_char a b).2.2 h, (cmpNat_char b a).2.2 h.symm]; rfl
    · rw [(cmpNat_char a b).2.1 h, (cmpNat_char b a).1 h]; rfl
  · intro a b d h1 h2
    exact (cmpNat_char a d).1 (Nat.lt_trans ((cmpNat_inv a b).1 h1) ((cmpNat_inv b d).1 h2))
  · intro a b d h1 h2
    exact (cmpNat_char a d).2.2 (((cmpNat_inv a b).2.2 h1).trans ((cmpNat_inv b d).2.2 h2))
  · intro a b d h1 h2
    have := (cmpNat_inv a b).2.2 h1
    exact (cmpNat_char a d).1 (this ▸ (cmpNat_inv b d).1 h2)
  · intro a b d h1 h2
    have := (cmpNat_inv b d).2.2 h2
    exact (cmpNat_char a d).1 (this ▸ (cmpNat_inv a b).1 h1)

theorem cmpLaws_pull {c : β → β → Ordering} (h : CmpLaws c) (f : α → β) :
    CmpLaws (fun a b => c (f a) (f b)) := by
  constructor
  · exact fun a b => h.symm (f a) (f b)
  · exact fun a b d => h.lt_trans (f a) (f b) (f d)
  · exact fun a b d => h.eq_trans (f a) (f b) (f d)
  · exact fun a b d => h.eq_lt (f a) (f b) (f d)
  · exact fun a b d => h.lt_eq (f a) (f b) (f d)

theorem cmpLaws_then {c₁ c₂ : α → α → Ordering} (h₁ : CmpLaws c₁) (h₂ : CmpLaws c₂) :
    CmpLaws (fun a b => (c₁ a b).then (c₂ a b)) := by
  constructor
  · intro a b
    rw [h₁.symm a b, h₂.symm a b, swap_then]
  · intro a b d hab hbd
    rw [then_eq_lt] at hab hbd ⊢
    rcases hab with h | ⟨he, hl⟩ <;> rcases hbd with h2 | ⟨he2, hl2⟩
    · exact Or.inl (h₁.lt_trans _ _ _ h h2)
    · exact Or.inl (h₁.lt_eq _ _ _ h he2)
    · exact Or.inl (h₁.eq_lt _ _ _ he h2)
    · exact Or.inr ⟨h₁.eq_trans _ _ _ he he2, h₂.lt_trans _ _ _ hl hl2⟩
  · intro a b d hab hbd
    rw [then_eq_eq] at hab hbd ⊢
    exact ⟨h₁.eq_trans _ _ _ hab.1 hbd.1, h₂.eq_trans _ _ _ hab.2 hbd.2⟩
  · intro a b d hab hbd
    rw [then_eq_eq] at hab
    rw [then_eq_lt] at hbd ⊢
    rcases hbd with h | ⟨he, hl⟩
    · exact Or.inl (h₁.eq_lt _ _ _ hab.1 h)
    · exact Or.inr ⟨h₁.eq_trans _ _ _ hab.1 he, h₂.eq_lt _ _ _ hab.2 hl⟩
  · intro a b d hab hbd
    rw [then_eq_eq] at hbd
    rw [then_eq_lt] at hab ⊢
    rcases hab with h | ⟨he, hl⟩
    · exact Or.inl (h₁.lt_eq _ _ _ h hbd.1)
    · exact Or.inr ⟨h₁.eq_trans _ _ _ he hbd.1, h₂.lt_eq _ _ _ hl hbd.2⟩

theorem cmpLaws_opt {c : α → α → Ordering} (h : CmpLaws c) : CmpLaws (cmpOpt c) := by
  constructor
  · intro a b
    cases a <;> cases b <;> simp [cmpOpt, Ordering.swap]
    exact h.symm _ _
  · intro a b d h1 h2
    cases a <;> cases b <;> cases d <;> simp_all [cmpOpt]
    exact h.lt_trans _ _ _ h1 h2
  · intro a b d h1 h2
    cases a <;> cases b <;> cases d <;> simp_all [cmpOpt]
    exact h.eq_trans _ _ _ h1 h2
  · intro a b d h1 h2
    cases a <;> cases b <;> cases d <;> simp_all [cmpOpt]
    exact h.eq_lt _ _ _ h1 h2
  · intro a b d h1 h2
    cases a <;> cases b <;> cases d <;> simp_all [cmpOpt]
    exact h.lt_eq _ _ _ h1 h2

theorem cmpLaws_char : CmpLaws cmpChar := by
  have := cmpLaws_pull cmpLaws_nat Char.toNat
  constructor
  · exact fun a b => this.symm a b
  · exact fun a b d => this.lt_trans a b d
  · exact fun a b d => this.eq_trans a b d
  · exact fun a b d => this.eq_lt a b d
  · exact fun a b d => this.lt_eq a b d

theorem cmpCharList_symm (a b : List Char) : cmpCharList a b = (cmpCharList b a).swap := by
  induction a generalizing b with
  | nil => cases b <;> rfl
  | cons x xs ih =>
    cases b with
    | nil => rfl
    | cons y ys =>
      simp only [cmpCharList, swap_then, ← cmpLaws_char.symm x y, ih ys]

theorem cmpCharList_lt_trans (a b d : List Char) (h1 : cmpCharList a b = .lt)
    (h2 : cmpCharList b d = .lt) : cmpCharList a d = .lt := by
  induction a generalizing b d with
  | nil =>
    cases b with
    | nil => exact absurd h1 (by simp [cmpCharList])
    | cons y ys => cases d with
      | nil => exact absurd h2 (by simp [cmpCharList])
      | cons z zs => rfl
  | cons x xs ih =>
    cases b with
    | nil => exact absurd h1 (by simp [cmpCharList])
    | cons y ys =>
      cases d with
      | nil => exact absurd h2 (by simp [cmpCharList])
      | cons z zs =>
        simp only [cmpCharList, then_eq_lt] at h1 h2 ⊢
        rcases h1 with h | ⟨he, hl⟩ <;> rcases h2 with h2 | ⟨he2, hl2⟩
        · exact Or.inl (cmpLaws_char.lt_trans _ _ _ h h2)
        · exact Or.inl (cmpLaws_char.lt_eq _ _ _ h he2)
        · exact Or.inl (cmpLaws_char.eq_lt _ _ _ he h2)
        · exact Or.inr ⟨cmpLaws_char.eq_trans _ _ _ he he2, ih ys zs hl hl2⟩

theorem cmpCharList_eq_iff (a b : List Char) : cmpCharList a b = .eq ↔ a = b := by
  induction a generalizing b with
  | nil => cases b <;> simp [cmpCharList]
  | cons x xs ih =>
    cases b with
    | nil => simp [cmpCharList]
    | cons y ys =>
      simp only [cmpCharList, then_eq_eq, ih ys, List.cons.injEq]
      constructor
      · rintro ⟨h1, h2⟩
        have hx := (cmpNat_inv x.toNat y.toNat).2.2 h1
        exact ⟨Char.ext (UInt32.ext hx), h2⟩
      · rintro ⟨h1, h2⟩
        exact ⟨h1 ▸ cmpLaws_refl cmpLaws_char x, h2⟩

theorem cmpLaws_charList : CmpLaws cmpCharList := by
  constructor
  · exact cmpCharList_symm
  · exact cmpCharList_lt_trans
  · intro a b d h1 h2
    rw [cmpCharList_eq_iff] at h1 h2 ⊢
    exact h1.trans h2
  · intro a b d h1 h2
    rw [cmpCharList_eq_iff] at h1
    exact h1 ▸ h2
  · intro a b d h1 h2
    rw [cmpCharList_eq_iff] at h2
    exact h2 ▸ h1

theorem cmpLaws_str : CmpLaws cmpStr :=
  cmpLaws_pull cmpLaws_charList String.data

theorem cmpLaws_date : CmpLaws cmpDate :=
  cmpLaws_then (cmpLaws_pull cmpLaws_nat SDate.year)
    (cmpLaws_then (cmpLaws_pull cmpLaws_nat SDate.month)
      (cmpLaws_pull cmpLaws_nat SDate.day))

theorem cmpLaws_row : CmpLaws rowCmp :=
  cmpLaws_then (cmpLaws_pull (cmpLaws_opt cmpLaws_date) XRow.scheduleSort)
    (cmpLaws_then (cmpLaws_pull (cmpLaws_opt cmpLaws_nat) XRow.startSort)
      (cmpLaws_then (cmpLaws_pull (cmpLaws_opt cmpLaws_nat) XRow.endSort)
        (cmpLaws_then (cmpLaws_pull cmpLaws_str XRow.region)
          (cmpLaws_then (cmpLaws_pull cmpLaws_str XRow.province)
            (cmpLaws_pull cmpLaws_str XRow.beis)))))

theorem rowLe_total (a b : XRow) : rowLe a b = true ∨ rowLe b a = true := by
  unfold rowLe
  by_cases h : rowCmp a b = .gt
  · right
    have := cmpLaws_row.symm b a
    rw [h] at this
    simp [this, Ordering.swap]
  · left; simp [h]

theorem ne_gt_cases {x : Ordering} (h : x ≠ .gt) : x = .lt ∨ x = .eq := by
  cases x <;> simp_all

theorem rowLe_trans (a b d : XRow) (h1 : rowLe a b = true) (h2 : rowLe b d = true) :
    rowLe a d = true := by
  unfold rowLe at h1 h2 ⊢
  simp only [ne_eq, decide_eq_true_eq] at h1 h2 ⊢
  rcases ne_gt_cases h1 with h1 | h1 <;> rcases ne_gt_cases h2 with h2 | h2
  · rw [cmpLaws_row.lt_trans a b d h1 h2]; simp
  · rw [cmpLaws_row.lt_eq a b d h1 h2]; simp
  · rw [cmpLaws_row.eq_lt a b d h1 h2]; simp
  · rw [cmpLaws_row.eq_trans a b d h1 h2]; simp

theorem rowCmp_eq_of_sortKey_eq (a b : XRow) (h : sortKey a = sortKey b) :
    rowCmp a b = .eq := by
  unfold sortKey at h
  simp only [Prod.mk.injEq] at h
  obtain ⟨h1, h2, h3, h4, h5, h6⟩ := h
  unfold rowCmp
  rw [h1, h2, h3, h4, h5, h6]
  rw [cmpLaws_refl (cmpLaws_opt cmpLaws_date), cmpLaws_refl (cmpLaws_opt cmpLaws_nat),
    cmpLaws_refl (cmpLaws_opt cmpLaws_nat), cmpLaws_refl cmpLaws_str,
    cmpLaws_refl cmpLaws_str, cmpLaws_refl cmpLaws_str]
  rfl

theorem mem_insertLe (le : α → α → Bool) (a x : α) (l : List α) :
    x ∈ insertLe le a l ↔ x = a ∨ x ∈ l := by
  induction l with
  | nil => simp [insertLe]
  | cons b bs ih =>
    unfold insertLe
    split
    · simp [List.mem_cons]
    · simp only [List.mem_cons, ih]
      tauto

theorem pairwise_insertLe (le : α → α → Bool)
    (total : ∀ a b, le a b = true ∨ le b a = true)
    (htrans : ∀ a b c, le a b = true → le b c = true → le a c = true)
    (a : α) (l : List α) (h : l.Pairwise (fun x y => le x y = true)) :
    (insertLe le a l).Pairwise (fun x y => le x y = true) := by
  induction l with
  | nil => simp [insertLe]
  | cons b bs ih =>
    unfold insertLe
    split
    · rename_i hab
      refine List.Pairwise.cons ?_ h
      intro x hx
      rcases List.mem_cons.mp hx with rfl | hx
      · exact hab
      · exact htrans a b x hab ((List.pairwise_cons.mp h).1 x hx)
    · rename_i hab
      have hba : le b a = true := by
        rcases total a b with h1 | h1
        · exact absurd h1 hab
        · exact h1
      refine List.Pairwise.cons ?_ (ih (List.pairwise_cons.mp h).2)
      intro x hx
      rcases (mem_insertLe le a x bs).mp hx with rfl | hx
      · exact hba
      · exact (List.pairwise_cons.mp h).1 x hx

theorem pairwise_insSort (le : α → α → Bool)
    (total : ∀ a b, le a b = true ∨ le b a = true)
    (htrans : ∀ a b c, le a b = true → le b c = true → le a c = true)
    (l : List α) : (insSort le l).Pairwise (fun x y => le x y = true) := by
  induction l with
  | nil => simp [insSort]
  | cons a as ih => exact pairwise_insertLe le total htrans a (insSort le as) ih

theorem filter_insertLe (le : α → α → Bool) (p : α → Bool) (a : α) (l : List α)
    (hp : ∀ b, p a = true → p b = true → le a b = true) :
    (insertLe le a l).filter p = if p a then a :: l.filter p else l.filter p := by
  induction l with
  | nil =>
    simp only [insertLe, List.filter]
    cases hpa : p a <;> simp
  | cons b bs ih =>
    unfold insertLe
    split
    · rename_i hab
      by_cases hpa : p a = true <;> simp [List.filter, hpa]
    · rename_i hab
      by_cases hpa : p a = true
      · have hpb : p b = false := by
          cases hb : p b
          · rfl
          · exact absurd (hp b hpa hb) hab
        simp only [List.filter, hpb, ih, hpa, if_true]
      · have hpa2 : p a = false := by simp_all
        simp only [List.filter, ih, hpa2, if_false]
        cases hb : p b <;> rfl

theorem filter_insSort (le : α → α → Bool) (p : α → Bool)
    (hp : ∀ a b, p a = true → p b = true → le a b = true) (l : List α) :
    (insSort le l).filter p = l.filter p := by
  induction l with
  | nil => rfl
  | cons a as ih =>
    unfold insSort
    rw [filter_insertLe le p a (insSort le as) (fun b => hp a b)]
    by_cases hpa : p a = true
    · simp [List.filter, hpa, ih]
    · have : p a = false := by simp_all
      simp [List.filter, this, ih]

theorem dedupKeepLast_nil (l : List StarRow) (h : dedupKeepLast l = []) : l = [] := by
  induction l with
  | nil => rfl
  | cons r rs ih =>
    unfold dedupKeepLast at h
    split at h
    · rename_i hany
      have := ih h
      subst this
      simp at hany
    · exact absurd h (by simp)

theorem find_dedupKeepLast (l : List StarRow) (b : String) :
    (dedupKeepLast l).find? (fun s => s.beis == b) =
      l.reverse.find? (fun s => s.beis == b) := by
  induction l with
  | nil => rfl
  | cons r rs ih =>
    unfold dedupKeepLast
    rw [List.reverse_cons, List.find?_append]
    split
    · rename_i hany
      rw [ih]
      cases hrev : rs.reverse.find? (fun s => s.beis == b) with
      | some x => simp [Option.or]
      | none =>
        simp only [Option.or]
        cases hrb : (r.beis == b) with
        | false => simp [List.find?, hrb]
        | true =>
          obtain ⟨s, hs, hsb⟩ := List.any_eq_true.mp hany
          have : s.beis == b := by
            rw [beq_iff_eq] at hsb ⊢
            rw [hsb]
            exact beq_iff_eq.mp hrb
          have hne := List.find?_eq_none.mp hrev s (List.mem_reverse.mpr hs)
          exact absurd this hne
    · rename_i hany
      cases hrb : (r.beis == b) with
      | true =>
        have hrev : rs.reverse.find? (fun s => s.beis == b) = none := by
          rw [List.find?_eq_none]
          intro s hs
          intro hsb
          apply hany
          rw [List.any_eq_true]
          refine ⟨s, List.mem_reverse.mp hs, ?_⟩
          rw [beq_iff_eq] at hsb hrb ⊢
          rw [hsb, hrb]
        rw [List.find?_cons, hrb, ih, hrev]
        simp [Option.or, List.find?, hrb]
      | false =>
        rw [List.find?_cons, hrb, ih]
        cases hrev : rs.reverse.find? (fun s => s.beis == b) <;>
          simp [Option.or, List.find?, hrb]

theorem mergedRows_eq (fb : String → Option SDate) (main : List MainRow)
    (starP : List StarRow) :
    mergedRows fb main starP = main.map (fun m =>
      match starP.find? (fun s => s.beis == m.beis) with
      | some s => mkXRow fb m s.activation s.approval
      | none => mkXRow fb m "" "") := by
  unfold mergedRows
  split
  · rename_i h
    have : starP = [] := List.isEmpty_iff.mp h
    subst this
    simp [List.find?]
  · rfl

theorem firstParse_append_none (pre rest : List (List FTok)) (v : String)
    (h : ∀ g ∈ pre, strptimeDate g v = none) :
    firstParse (pre ++ rest) v = firstParse rest v := by
  induction pre with
  | nil => rfl
  | cons f fs ih =>
    rw [List.cons_append]
    have hf := h f (List.mem_cons_self f fs)
    simp only [firstParse, hf]
    exact ih (fun g hg => h g (List.mem_cons_of_mem f hg))

theorem firstParse_none (fmts : List (List FTok)) (v : String)
    (h : ∀ g ∈ fmts, strptimeDate g v = none) : firstParse fmts v = none := by
  have := firstParse_append_none fmts [] v h
  rw [List.append_nil] at this
  rw [this]
  rfl

theorem dot_not_mem_of_noMeta (s : String) (h : noMeta s = true) : '.' ∉ s.data := by
  intro hmem
  unfold noMeta at h
  rw [List.all_eq_true] at h
  have := h '.' hmem
  simp [regexMetaChars] at this

theorem patLead_eq_lead (p h : List Char) (hp : '.' ∉ p) :
    patLead p h = leadMatch (p.map lc) (h.map lc) := by
  induction p generalizing h with
  | nil => cases h <;> rfl
  | cons a as ih =>
    cases h with
    | nil => rfl
    | cons b bs =>
      have hane : (a == '.') = false := by
        simp only [beq_eq_false_iff_ne, ne_eq]
        intro hc
        exact hp (hc ▸ List.mem_cons_self a as)
      simp only [patLead, hane, Bool.false_eq_true, if_false, List.map_cons, leadMatch]
      rw [ih bs (fun hc => hp (List.mem_cons_of_mem a hc))]

theorem patFind_eq_hasSub (p h : List Char) (hp : '.' ∉ p) :
    patFind p h = hasSub (p.map lc) (h.map lc) := by
  induction h with
  | nil =>
    show patLead p [] = leadMatch (p.map lc) []
    have := patLead_eq_lead p [] hp
    simpa using this
  | cons b bs ih =>
    simp only [patFind, List.map_cons, hasSub]
    rw [patLead_eq_lead p (b :: bs) hp, ih]
    rfl

theorem reSearch_eq_literal (needle hay : String) (h : noMeta needle = true) :
    reSearchCI needle hay = ciLiteralSubstr needle hay := by
  unfold reSearchCI ciLiteralSubstr pySubstr lowerStr
  exact patFind_eq_hasSub needle.data hay.data (dot_not_mem_of_noMeta needle h)

theorem rowSearch_eq_spec (hA hF hV : Bool) (needle : String) (r : XRow)
    (h : noMeta needle = true) :
    rowSearchMatch hA hF hV needle r = specSearchMatch hA hF hV needle r := by
  unfold rowSearchMatch specSearchMatch
  rw [reSearch_eq_literal needle r.region h, reSearch_eq_literal needle r.province h,
    reSearch_eq_literal needle r.beis h, reSearch_eq_literal needle r.scheduleDisplay h,
    reSearch_eq_literal needle r.installation h, reSearch_eq_literal needle r.starlink h,
    reSearch_eq_literal needle r.approval h, reSearch_eq_literal needle r.finalStatus h,
    reSearch_eq_literal needle r.validated h, reSearch_eq_literal needle r.blocker h]

theorem getTableData_ok_shape (fb : String → Option SDate) (main : MainTable)
    (star : List StarRow) (a : Args) (out : Output)
    (h : getTableData fb main star a = .ok out) :
    (out.rows = [] ∧ out.stats = zeroStats) ∨
    ∃ f6 : List XRow, (processStar star).isEmpty = false ∧
      out.rows = buildRows true main.hasFinal main.hasValidated
        (applyTile (pyStrip a.tile) f6) ∧
      out.stats = computeStats (applyTile (pyStrip a.tile) f6) := by
  simp only [getTableData] at h
  split at h
  · simp only [Except.ok.injEq] at h
    subst h
    left
    exact ⟨rfl, rfl⟩
  · split at h
    · simp only [Except.ok.injEq] at h
      subst h
      left
      exact ⟨rfl, rfl⟩
    · split at h
      · exact absurd h (by simp)
      · rename_i hne hap
        split at h
        · simp only [Except.ok.injEq] at h
          subst h
          left
          exact ⟨rfl, rfl⟩
        · simp only [Except.ok.injEq] at h
          subst h
          right
          have hap2 : (processStar star).isEmpty = false := by
            simpa using hap
          refine ⟨applyInteractive (!(processStar star).isEmpty) main.hasFinal
            main.hasValidated a (baseRows fb main star a.includeUnscheduled a.lot),
            hap2, ?_, rfl⟩
          rw [hap2]
          rfl

theorem getTableData_opts (fb : String → Option SDate) (main : MainTable)
    (star : List StarRow) (a : Args) (out : Output)
    (h : getTableData fb main star a = .ok out) :
    out.opts = if main.rows.isEmpty then ⟨[], [], [], [], []⟩
      else computeOptions main.hasFinal main.hasValidated
        (baseRows fb main star a.includeUnscheduled a.lot) := by
  simp only [getTableData] at h
  split at h
  · rename_i hmain
    simp only [Except.ok.injEq] at h
    subst h
    rw [if_pos hmain]
    rfl
  · rename_i hmain
    rw [if_neg hmain]
    split at h
    · simp only [Except.ok.injEq] at h
      subst h
      rfl
    · split at h
      · exact absurd h (by simp)
      · split at h <;>
          (simp only [Except.ok.injEq] at h
           subst h
           rfl)

theorem acceptMask_rowOut (hF hV : Bool) (r : XRow) :
    pySubstr "accept" (lowerStr ((mkRowOut true hF hV r).approval)) = apprAcceptMask r := by
  show pySubstr "accept"
      (lowerStr (if pyStrip r.approval = "" then "Pending" else pyStrip r.approval)) = _
  unfold apprAcceptMask approvalAccepted
  by_cases h : pyStrip r.approval = ""
  · rw [if_pos h, h]
    decide
  · rw [if_neg h]

theorem declineMask_rowOut (hF hV : Bool) (r : XRow) :
    pySubstr "declin" (lowerStr ((mkRowOut true hF hV r).approval)) = apprDeclineMask r := by
  show pySubstr "declin"
      (lowerStr (if pyStrip r.approval = "" then "Pending" else pyStrip r.approval)) = _
  unfold apprDeclineMask approvalDeclined
  by_cases h : pyStrip r.approval = ""
  · rw [if_pos h, h]
    decide
  · rw [if_neg h]

theorem filter_two_disjoint (l : List XRow) (p q : XRow → Bool)
    (h : ∀ r ∈ l, ¬(p r = true ∧ q r = true)) :
    (l.filter p).length + (l.filter q).length ≤ l.length := by
  induction l with
  | nil => simp
  | cons a as ih =>
    have ha := h a (List.mem_cons_self a as)
    have ih2 := ih (fun r hr => h r (List.mem_cons_of_mem a hr))
    cases hp : p a <;> cases hq : q a <;>
      simp only [List.filter, hp, hq, List.length_cons, List.length]
    · omega
    · omega
    · omega
    · exact absurd ⟨hp, hq⟩ ha

theorem computeStats_fields (l : List XRow) :
    (computeStats l).star_activated = countRows l starActivatedMask ∧
    (computeStats l).star_not_activated = (l.length : Int) - countRows l starActivatedMask ∧
    (computeStats l).approval_accepted = countRows l apprAcceptMask ∧
    (computeStats l).approval_decline = countRows l apprDeclineMask ∧
    (computeStats l).approval_pending =
      (l.length : Int) - countRows l apprAcceptMask - countRows l apprDeclineMask ∧
    (computeStats l).calendar_sent =
      countRows l (fun r => lowerStr (pyStrip r.calendarStatus) == "sent") ∧
    (computeStats l).calendar_not_sent =
      countRows l (fun r => lowerStr (pyStrip r.calendarStatus) == "invite not sent") ∧
    (computeStats l).s1_success =
      countRows l (fun r => lowerStr (pyStrip r.installation) == "s1 - installed (success)") ∧
    (computeStats l).scheduled =
      (l.length : Int) - countRows l (fun r => pyStrip r.schedule == "") ∧
    (computeStats l).unscheduled = countRows l (fun r => pyStrip r.schedule == "") :=
  ⟨rfl, rfl, rfl, rfl, rfl, rfl, rfl, rfl, rfl, rfl⟩

theorem buildRows_length (hA hF hV : Bool) (l : List XRow) :
    (buildRows hA hF hV l).length = l.length := List.length_map _ _

theorem applyTile_star (l : List XRow) :
    applyTile "star_activated" l = l.filter starActivatedMask := by
  unfold applyTile
  rw [if_neg (by decide), if_pos rfl]

theorem filter_self_length (l : List XRow) (p : XRow → Bool) :
    (l.filter p).filter p = l.filter p := by
  rw [List.filter_filter]
  apply List.filter_congr
  intro r _
  exact Bool.and_self (p r)

/-- C1: with a non-empty main table holding every required column and an
empty auxiliary record set, `get_table_data` does not complete: the
statistics block indexes the approval column, which the merge never created
in that case, and the uncaught `KeyError` propagates.  The concrete
evaluation exhibits the failure at a one-row scheduled main table. -/
theorem claim_C1_failing_eval :
    getTableData fb0 mainC1 [] argsD = .error approvalKeyError := by rfl

/-- C2 counterexample: on the scenario row the returned schedule display is
the range string with a dash placeholder for the absent end date, not the
bare start date the claim states. -/
theorem claim_C2_counterexample :
    (rowsOf (getTableData fb0 mainC1 starC2 argsD)).map RowOut.schedule =
      ["Feb. 04, 2026 - -"] ∧
    ("Feb. 04, 2026 - -" : String) ≠ "Feb. 04, 2026" := by
  exact ⟨by rfl, by decide⟩

/-- C2 amended: on the scenario row the pipeline classifies the row as
not-activated and approval pending (the aggregate counts show the
classification), the approval display text is exactly `"Pending"`, and the
schedule display is exactly `"Feb. 04, 2026 - -"`. -/
theorem claim_C2_amended :
    rowsOf (getTableData fb0 mainC1 starC2 argsD) =
      [{ region := "Region I", division := "Div A", province := "Ilocos Norte",
         beis := "100001", schedule := "Feb. 04, 2026 - -", calendarStatus := "",
         startTime := "", endTime := "", installation := "", starlink := "",
         approval := "Pending", finalStatus := "", validated := "", blocker := "" }] ∧
    (statsOf (getTableData fb0 mainC1 starC2 argsD)).star_activated = 0 ∧
    (statsOf (getTableData fb0 mainC1 starC2 argsD)).star_not_activated = 1 ∧
    (statsOf (getTableData fb0 mainC1 starC2 argsD)).approval_accepted = 0 ∧
    (statsOf (getTableData fb0 mainC1 starC2 argsD)).approval_decline = 0 ∧
    (statsOf (getTableData fb0 mainC1 starC2 argsD)).approval_pending = 1 := by
  exact ⟨by rfl, by rfl, by rfl, by rfl, by rfl, by rfl⟩

/-- C3 counterexample: a single row whose approval text contains both
`"accept"` and `"declin"` drives `approval_pending` to the negative value
`-1`, refuting non-negativity of every count. -/
theorem claim_C3_counterexample :
    (statsOf (getTableData fb0 mainC1 starC3 argsD)).approval_pending = -1 ∧
    (statsOf (getTableData fb0 mainC1 starC3 argsD)).approval_pending < 0 := by
  exact ⟨by rfl, by decide⟩

/-- C3 amended: for every input and every filter combination on which
`get_table_data` returns, every count except `approval_pending` is
non-negative, the activation partition and the three-way approval partition
sum exactly to the number of returned rows, and `approval_pending` is also
non-negative whenever no returned row's approval text contains both
`"accept"` and `"declin"` (the counterexample shows it can go negative
otherwise). -/
theorem claim_C3_amended (fb : String → Option SDate) (main : MainTable)
    (star : List StarRow) (a : Args) (out : Output)
    (h : getTableData fb main star a = .ok out) :
    (0 ≤ out.stats.star_activated ∧ 0 ≤ out.stats.star_not_activated ∧
     0 ≤ out.stats.approval_accepted ∧ 0 ≤ out.stats.approval_decline ∧
     0 ≤ out.stats.calendar_sent ∧ 0 ≤ out.stats.calendar_not_sent ∧
     0 ≤ out.stats.s1_success ∧ 0 ≤ out.stats.scheduled ∧
     0 ≤ out.stats.unscheduled) ∧
    out.stats.star_activated + out.stats.star_not_activated = (out.rows.length : Int) ∧
    out.stats.approval_accepted + out.stats.approval_decline + out.stats.approval_pending
      = (out.rows.length : Int) ∧
    ((∀ ro ∈ out.rows, ¬(pySubstr "accept" (lowerStr ro.approval) = true ∧
        pySubstr "declin" (lowerStr ro.approval) = true)) →
      0 ≤ out.stats.approval_pending) := by
  rcases getTableData_ok_shape fb main star a out h with ⟨hr, hs⟩ | ⟨f6, hap, hr, hs⟩
  · rw [hr, hs]
    refine ⟨⟨le_refl 0, le_refl 0, le_refl 0, le_refl 0, le_refl 0, le_refl 0,
      le_refl 0, le_refl 0, le_refl 0⟩, by simp [zeroStats], by simp [zeroStats],
      fun _ => le_refl 0⟩
  · set l := applyTile (pyStrip a.tile) f6 with hl
    obtain ⟨e1, e2, e3, e4, e5, e6, e7, e8, e9, e10⟩ := computeStats_fields l
    rw [hr, hs, buildRows_length]
    have hsa : (l.filter starActivatedMask).length ≤ l.length := List.length_filter_le _ _
    have hac : (l.filter apprAcceptMask).length ≤ l.length := List.length_filter_le _ _
    have hdc : (l.filter apprDeclineMask).length ≤ l.length := List.length_filter_le _ _
    have hus : (l.filter (fun r => pyStrip r.schedule == "")).length ≤ l.length :=
      List.length_filter_le _ _
    refine ⟨⟨?_, ?_, ?_, ?_, ?_, ?_, ?_, ?_, ?_⟩, ?_, ?_, ?_⟩
    · rw [e1]; unfold countRows; omega
    · rw [e2]; unfold countRows; unfold countRows at *; omega
    · rw [e3]; unfold countRows; omega
    · rw [e4]; unfold countRows; omega
    · rw [e6]; unfold countRows; omega
    · rw [e7]; unfold countRows; omega
    · rw [e8]; unfold countRows; omega
    · rw [e9]; unfold countRows at *; omega
    · rw [e10]; unfold countRows; omega
    · rw [e1, e2]; unfold countRows; omega
    · rw [e3, e4, e5]; unfold countRows; omega
    · intro hno
      have hdisj : ∀ r ∈ l, ¬(apprAcceptMask r = true ∧ apprDeclineMask r = true) := by
        intro r hrl hboth
        have hro : mkRowOut true main.hasFinal main.hasValidated r ∈
            buildRows true main.hasFinal main.hasValidated l :=
          List.mem_map_of_mem _ hrl
        have hcontra := hno _ hro
        rw [acceptMask_rowOut, declineMask_rowOut] at hcontra
        exact hcontra hboth
      have hsum := filter_two_disjoint l apprAcceptMask apprDeclineMask hdisj
      rw [e5]
      unfold countRows
      omega

/-- C3 witness: the amended statement applied to a concrete run whose rows
contain no approval text with both needles. -/
theorem claim_C3_amended_witness :
    0 ≤ (statsOf (getTableData fb0 mainC1 starC2 argsD)).approval_pending := by
  obtain ⟨o, ho⟩ : ∃ o, getTableData fb0 mainC1 starC2 argsD = .ok o := ⟨_, rfl⟩
  have hall : ∀ ro ∈ rowsOf (getTableData fb0 mainC1 starC2 argsD),
      ¬(pySubstr "accept" (lowerStr ro.approval) = true ∧
        pySubstr "declin" (lowerStr ro.approval) = true) := by decide
  have hp := (claim_C3_amended fb0 mainC1 starC2 argsD o ho).2.2.2
    (fun ro hro => hall ro (by rw [ho]; exact hro))
  rw [ho]
  exact hp

/-- C4 counterexample: with the search needle `"."` the filter keeps a row
none of whose searched fields contains a literal dot, because the needle is
interpreted as a regular expression, not as a literal substring. -/
theorem claim_C4_counterexample :
    rowsOf (getTableData fb0 mainC4 starC2 { search := "." }) ≠ [] ∧
    (["Region I", "Div A", "Ilocos Norte", "100001", "soon - -", ""].all
      (fun s => !ciLiteralSubstr "." s)) = true := by
  exact ⟨by decide, by decide⟩

/-- C4 amended: the search needle is handed to the regex engine with
IGNORECASE; for every needle free of regex metacharacters the filter keeps
exactly the rows in which at least one of the listed present fields contains
the needle as a case-insensitive literal substring (metacharacter needles
such as `"."` can keep rows lacking the literal substring, as the
counterexample shows). -/
theorem claim_C4_amended (hA hF hV : Bool) (needle : String) (l : List XRow)
    (h : noMeta needle = true) :
    applySearch hA hF hV needle l = l.filter (specSearchMatch hA hF hV needle) := by
  unfold applySearch
  apply List.filter_congr
  intro r _
  exact rowSearch_eq_spec hA hF hV needle r h

/-- C4 witness: the amended statement applied to a concrete metacharacter-free
needle and row list. -/
theorem claim_C4_amended_witness :
    noMeta "ilocos" = true ∧
    applySearch true false false "ilocos" [mkXRow fb0 mrow1 "" ""] =
      [mkXRow fb0 mrow1 "" ""].filter (specSearchMatch true false false "ilocos") :=
  ⟨by decide, claim_C4_amended true false false "ilocos" [mkXRow fb0 mrow1 "" ""]
    (by decide)⟩

/-- C5: the key-join returns exactly one unified row per main row, in order;
each unified row is built from its main row (so every non-auxiliary field
equals the main row's field, as the accompanying projection equations show),
and its auxiliary fields come from the last stripped auxiliary row with the
matching non-empty key, empty when no such row exists — duplicate keys keep
the last occurrence and empty-key auxiliary rows are dropped. -/
theorem claim_C5 (fb : String → Option SDate) (main : List MainRow)
    (star : List StarRow) :
    (mergedRows fb main (processStar star)).length = main.length ∧
    mergedRows fb main (processStar star) = main.map (fun m =>
      match (((star.map stripStar).filter (fun s => s.beis ≠ "")).reverse).find?
          (fun s => s.beis == m.beis) with
      | some s => mkXRow fb m s.activation s.approval
      | none => mkXRow fb m "" "") ∧
    ∀ m act appr, (mkXRow fb m act appr).region = m.region ∧
      (mkXRow fb m act appr).division = m.division ∧
      (mkXRow fb m act appr).province = m.province ∧
      (mkXRow fb m act appr).beis = m.beis ∧
      (mkXRow fb m act appr).startTime = m.startTime ∧
      (mkXRow fb m act appr).endTime = m.endTime ∧
      (mkXRow fb m act appr).installation = m.outcome ∧
      (mkXRow fb m act appr).blocker = m.blocker ∧
      (mkXRow fb m act appr).finalStatus = m.finalStatus ∧
      (mkXRow fb m act appr).validated = m.validated ∧
      (mkXRow fb m act appr).starlink = act ∧
      (mkXRow fb m act appr).approval = appr := by
  refine ⟨?_, ?_, ?_⟩
  · rw [mergedRows_eq]
    exact List.length_map _ _
  · rw [mergedRows_eq]
    apply List.map_congr_left
    intro m _
    show (match (dedupKeepLast ((star.map stripStar).filter (fun s => s.beis ≠ ""))).find?
        (fun s => s.beis == m.beis) with
      | some s => mkXRow fb m s.activation s.approval
      | none => mkXRow fb m "" "") = _
    rw [find_dedupKeepLast]
  · intro m act appr
    exact ⟨rfl, rfl, rfl, rfl, rfl, rfl, rfl, rfl, rfl, rfl, rfl, rfl⟩

/-- C6: the schedule parser strips its input and returns absent on empty
text; it attempts the fixed explicit formats in priority order and returns
the first success; a value that matches a pattern's syntax but is invalid as
a date is a parse failure for that pattern; and when every explicit pattern
fails it falls back to the permissive generic parser — the result is always
an optional date, never an error. -/
theorem claim_C6 (fb : String → Option SDate) (val : String) :
    (pyStrip val = "" → parseSchedule fb val = none) ∧
    (∀ pre f post d, scheduleFormats = pre ++ f :: post →
      (∀ g ∈ pre, strptimeDate g (pyStrip val) = none) →
      strptimeDate f (pyStrip val) = some d →
      pyStrip val ≠ "" → parseSchedule fb val = some d) ∧
    (∀ f pf, matchToks f {} (pyStrip val).data = some pf → mkDate pf = none →
      strptimeDate f (pyStrip val) = none) ∧
    ((∀ g ∈ scheduleFormats, strptimeDate g (pyStrip val) = none) →
      pyStrip val ≠ "" → parseSchedule fb val = fb (pyStrip val)) := by
  refine ⟨?_, ?_, ?_, ?_⟩
  · intro h
    simp only [parseSchedule]
    rw [if_pos h]
  · intro pre f post d hsplit hpre hf hne
    simp only [parseSchedule]
    rw [if_neg hne, hsplit, firstParse_append_none pre (f :: post) _ hpre]
    simp only [firstParse, hf]
  · intro f pf hm hinv
    unfold strptimeDate
    rw [hm]
    simpa using hinv
  · intro hall hne
    simp only [parseSchedule]
    rw [if_neg hne, firstParse_none _ _ hall]

/-- C6 witness: `"02/30/2026"` matches the `"%m/%d/%Y"` syntax but is an
invalid date, every explicit format fails, and the parser falls back; with
an always-absent fallback the result is absent. -/
theorem claim_C6_witness :
    (∀ g ∈ scheduleFormats, strptimeDate g (pyStrip "02/30/2026") = none) ∧
    parseSchedule fb0 "02/30/2026" = none := by
  refine ⟨by decide, ?_⟩
  have h := (claim_C6 fb0 "02/30/2026").2.2.2 (by decide) (by decide)
  simpa [fb0] using h

/-- C7: the sort step orders the rows by the six-component key (schedule
date, start time, end time, region, province, key; absent values last), and
it is stable: restricted to any fixed sort key, the sorted list equals the
input list, so rows with identical keys keep their relative input order. -/
theorem claim_C7 (l : List XRow) :
    (sortRows l).Pairwise (fun a b => rowLe a b = true) ∧
    ∀ k, (sortRows l).filter (fun r => sortKey r == k) =
      l.filter (fun r => sortKey r == k) := by
  constructor
  · exact pairwise_insSort rowLe rowLe_total rowLe_trans l
  · intro k
    apply filter_insSort
    intro a b ha hb
    have ha2 : sortKey a = k := by simpa using ha
    have hb2 : sortKey b = k := by simpa using hb
    unfold rowLe
    rw [rowCmp_eq_of_sortKey_eq a b (ha2.trans hb2.symm)]
    decide

theorem charToNat_ofNat (n : Nat) (h : n < 55296) : (Char.ofNat n).toNat = n := by
  unfold Char.ofNat
  split
  · simp [Char.toNat, Char.ofNatAux, UInt32.toNat, BitVec.toNat_ofNatLt]
  · rename_i hv
    exact absurd (Or.inl (by omega : n < 55296)) hv

theorem char_beq_eq_toNat (a b : Char) : (a == b) = (a.toNat == b.toNat) := by
  cases h : a.toNat == b.toNat with
  | true =>
    have : a = b := Char.ext (UInt32.ext (beq_iff_eq.mp h))
    rw [this]
    simp
  | false =>
    cases h2 : a == b with
    | false => rfl
    | true =>
      have : a = b := beq_iff_eq.mp h2
      rw [this] at h
      simp at h

theorem isPyWs_toNat (x : Char) :
    isPyWs x = (x.toNat == 32 || x.toNat == 9 || x.toNat == 10 || x.toNat == 13 ||
      x.toNat == 11 || x.toNat == 12) := by
  unfold isPyWs
  rw [char_beq_eq_toNat, char_beq_eq_toNat, char_beq_eq_toNat, char_beq_eq_toNat,
    char_beq_eq_toNat, char_beq_eq_toNat]
  rfl

theorem lc_toNat (c : Char) :
    (lc c).toNat = if 65 ≤ c.toNat ∧ c.toNat ≤ 90 then c.toNat + 32 else c.toNat := by
  unfold lc
  split
  · exact charToNat_ofNat (c.toNat + 32) (by omega)
  · rfl

theorem isPyWs_lc (c : Char) : isPyWs (lc c) = isPyWs c := by
  rw [isPyWs_toNat, isPyWs_toNat, lc_toNat]
  have hfalse : ∀ m : Nat, 65 ≤ m →
      (m == 32 || m == 9 || m == 10 || m == 13 || m == 11 || m == 12) = false := by
    intro m hm
    simp only [Bool.or_eq_false_iff, beq_eq_false_iff_ne, ne_eq]
    omega
  split
  · rename_i h
    rw [hfalse _ (by omega), hfalse _ (by omega)]
  · rfl

theorem leadMatch_iff (n h : List Char) : leadMatch n h = true ↔ n <+: h := by
  induction n generalizing h with
  | nil => simp [leadMatch]
  | cons a as ih =>
    cases h with
    | nil => simp [leadMatch]
    | cons b bs =>
      simp [leadMatch, List.cons_prefix_cons, ih, beq_iff_eq, And.comm]

theorem hasSub_iff (n u : List Char) : hasSub n u = true ↔ n <:+: u := by
  induction u with
  | nil =>
    rw [show hasSub n [] = leadMatch n [] from rfl, leadMatch_iff]
    constructor
    · exact fun h => h.isInfix
    · intro h
      rw [List.infix_nil] at h
      rw [h]
  | cons c cs ih =>
    rw [show hasSub n (c :: cs) = (leadMatch n (c :: cs) || hasSub n cs) from rfl]
    rw [Bool.or_eq_true, leadMatch_iff, ih]
    exact (List.infix_cons_iff).symm

theorem hasSub_reverse (n u : List Char) : hasSub n u.reverse = hasSub n.reverse u := by
  have h1 := hasSub_iff n u.reverse
  have h2 := hasSub_iff n.reverse u
  have h3 : n <:+: u.reverse ↔ n.reverse <:+: u := by
    rw [← List.reverse_reverse n]
    rw [List.reverse_infix]
    rw [List.reverse_reverse]
  rw [Bool.eq_iff_iff]
  rw [h1, h2]
  exact h3

theorem hasSub_dropWhile (p : Char → Bool) (n : List Char) (hn : n ≠ [])
    (hnp : ∀ c ∈ n, p c = false) (u : List Char) :
    hasSub n (u.dropWhile p) = hasSub n u := by
  induction u with
  | nil => rfl
  | cons c cs ih =>
    cases hc : p c with
    | true =>
      rw [show (c :: cs).dropWhile p = cs.dropWhile p from by simp [List.dropWhile, hc]]
      rw [ih]
      have hlm : leadMatch n (c :: cs) = false := by
        cases n with
        | nil => exact absurd rfl hn
        | cons a as =>
          show (a == c && leadMatch as cs) = false
          have hac : (a == c) = false := by
            cases hb : a == c with
            | false => rfl
            | true =>
              have he : a = c := beq_iff_eq.mp hb
              have hpa := hnp a (List.mem_cons_self a as)
              rw [he, hc] at hpa
              exact absurd hpa (by simp)
          rw [hac]
          rfl
      rw [show hasSub n (c :: cs) = (leadMatch n (c :: cs) || hasSub n cs) from rfl, hlm]
      simp
    | false =>
      rw [show (c :: cs).dropWhile p = c :: cs from by simp [List.dropWhile, hc]]

theorem pySubstr_pyStrip (n s : String) (hn : n.data ≠ [])
    (hnp : ∀ c ∈ n.data, isPyWs c = false) :
    pySubstr n (pyStrip s) = pySubstr n s := by
  unfold pySubstr pyStrip
  show hasSub n.data (((s.data.dropWhile isPyWs).reverse.dropWhile isPyWs).reverse) = _
  rw [hasSub_reverse,
    hasSub_dropWhile isPyWs n.data.reverse (by simpa using hn)
      (fun c hc => hnp c (List.mem_reverse.mp hc)),
    hasSub_reverse, List.reverse_reverse,
    hasSub_dropWhile isPyWs n.data hn hnp]

theorem lower_pyStrip (s : String) : lowerStr (pyStrip s) = pyStrip (lowerStr s) := by
  have hdw : ∀ l : List Char, (l.map lc).dropWhile isPyWs = (l.dropWhile isPyWs).map lc := by
    intro l
    rw [List.dropWhile_map]
    have hfun : (isPyWs ∘ lc) = isPyWs := funext isPyWs_lc
    rw [hfun]
  unfold lowerStr pyStrip
  show String.mk ((((s.data.dropWhile isPyWs).reverse.dropWhile isPyWs).reverse).map lc) =
    String.mk ((((s.data.map lc).dropWhile isPyWs).reverse.dropWhile isPyWs).reverse)
  rw [hdw, ← List.map_reverse, hdw, ← List.map_reverse]

/-- C8: the approval classifier accepts by case-insensitive substring match
on `"accept"`, while the calendar classifier maps to `"Sent"` exactly when
the stripped raw value is the exact string `"Invite Sent"` and maps every
other non-empty value to `"Invite Not Sent"`; in particular
`"Accepted via email"` is accepted while `"Invite Sent via email"` is not
sent — substring containment is insufficient for the calendar classifier. -/
theorem claim_C8 (raw : String) :
    (ciLiteralSubstr "accept" raw = true → approvalAccepted raw = true) ∧
    (mapCalendarStatus raw = "Sent" ↔ pyStrip raw = "Invite Sent") ∧
    (pyStrip raw ≠ "" → pyStrip raw ≠ "Invite Sent" →
      mapCalendarStatus raw = "Invite Not Sent") ∧
    approvalAccepted "Accepted via email" = true ∧
    mapCalendarStatus "Invite Sent via email" = "Invite Not Sent" := by
  refine ⟨?_, ?_, ?_, by decide, by decide⟩
  · intro h
    unfold approvalAccepted
    rw [lower_pyStrip,
      pySubstr_pyStrip "accept" (lowerStr raw) (by decide) (by decide)]
    unfold ciLiteralSubstr at h
    rw [show lowerStr "accept" = "accept" from rfl] at h
    exact h
  · constructor
    · intro h
      simp only [mapCalendarStatus] at h
      split_ifs at h with h1 h2
      · exact absurd h (by decide)
      · exact h2
      · exact absurd h (by decide)
    · intro h
      simp only [mapCalendarStatus]
      rw [if_neg (by rw [h]; decide), if_pos h]
  · intro h1 h2
    simp only [mapCalendarStatus]
    rw [if_neg h1, if_neg h2]

/-- C8 witness: the substring conjunct applied at the concrete accepted
example. -/
theorem claim_C8_witness :
    ciLiteralSubstr "accept" "Accepted via email" = true ∧
    approvalAccepted "Accepted via email" = true :=
  ⟨by decide, (claim_C8 "Accepted via email").1 (by decide)⟩

/-- C9: two runs over the same loaded data that agree on
`include_unscheduled` and the lot, however they differ in the interactive
filter arguments (region, schedule, installation, final, validated, search,
tile), return the same five filter-option lists. -/
theorem claim_C9 (fb : String → Option SDate) (main : MainTable)
    (star : List StarRow) (a1 a2 : Args) (out1 out2 : Output)
    (hiu : a1.includeUnscheduled = a2.includeUnscheduled) (hlot : a1.lot = a2.lot)
    (h1 : getTableData fb main star a1 = .ok out1)
    (h2 : getTableData fb main star a2 = .ok out2) :
    out1.opts.regionOptions = out2.opts.regionOptions ∧
    out1.opts.scheduleOptions = out2.opts.scheduleOptions ∧
    out1.opts.installationOptions = out2.opts.installationOptions ∧
    out1.opts.finalOptions = out2.opts.finalOptions ∧
    out1.opts.validatedOptions = out2.opts.validatedOptions := by
  have e1 := getTableData_opts fb main star a1 out1 h1
  have e2 := getTableData_opts fb main star a2 out2 h2
  rw [hiu, hlot] at e1
  rw [e1, e2]
  exact ⟨rfl, rfl, rfl, rfl, rfl⟩

/-- C9 witness: the hyperproperty applied to two concrete runs differing in
the region, search and tile arguments. -/
theorem claim_C9_witness :
    (optsOf (getTableData fb0 mainC1 starC2 argsD)).regionOptions =
      (optsOf (getTableData fb0 mainC1 starC2
        { region := "Region I", search := "ilocos", tile := "star_activated" })).regionOptions := by
  obtain ⟨o1, h1⟩ : ∃ o, getTableData fb0 mainC1 starC2 argsD = .ok o := ⟨_, rfl⟩
  obtain ⟨o2, h2⟩ : ∃ o, getTableData fb0 mainC1 starC2
      { region := "Region I", search := "ilocos", tile := "star_activated" } = .ok o :=
    ⟨_, rfl⟩
  have h := claim_C9 fb0 mainC1 starC2 argsD
    { region := "Region I", search := "ilocos", tile := "star_activated" } o1 o2 rfl rfl h1 h2
  rw [h1, h2]
  exact h.1

/-- C10: when the `star_activated` tile is selected, the statistics are
computed over the drilled-down set that is also returned as rows: every
returned row's stripped lower-cased activation status is `"activated"`,
`star_activated` equals the number of returned rows, and
`star_not_activated` is zero. -/
theorem claim_C10 (fb : String → Option SDate) (main : MainTable)
    (star : List StarRow) (a : Args) (out : Output)
    (htile : pyStrip a.tile = "star_activated")
    (h : getTableData fb main star a = .ok out) :
    (∀ ro ∈ out.rows, lowerStr (pyStrip ro.starlink) = "activated") ∧
    out.stats.star_activated = (out.rows.length : Int) ∧
    out.stats.star_not_activated = 0 := by
  rcases getTableData_ok_shape fb main star a out h with ⟨hr, hs⟩ | ⟨f6, hap, hr, hs⟩
  · rw [hr, hs]
    exact ⟨fun ro hro => absurd hro (List.not_mem_nil ro), by simp [zeroStats], rfl⟩
  · rw [htile, applyTile_star] at hr hs
    obtain ⟨e1, e2, _⟩ := computeStats_fields (f6.filter starActivatedMask)
    refine ⟨?_, ?_, ?_⟩
    · intro ro hro
      rw [hr] at hro
      obtain ⟨r, hrmem, hre⟩ := List.mem_map.mp hro
      have hmask := (List.mem_filter.mp hrmem).2
      unfold starActivatedMask at hmask
      rw [← hre]
      exact beq_iff_eq.mp hmask
    · rw [hs, hr, e1, buildRows_length]
      unfold countRows
      rw [filter_self_length]
    · rw [hs, e2]
      unfold countRows
      rw [filter_self_length]
      omega

/-- C10 witness: the drill-down statement applied to a concrete run with the
`star_activated` tile selected. -/
theorem claim_C10_witness :
    (statsOf (getTableData fb0 mainC1 starC2 { tile := "star_activated" })).star_not_activated
      = 0 := by
  obtain ⟨o, ho⟩ : ∃ o, getTableData fb0 mainC1 starC2 { tile := "star_activated" } = .ok o :=
    ⟨_, rfl⟩
  have h := claim_C10 fb0 mainC1 starC2 { tile := "star_activated" } o (by decide) ho
  rw [ho]
  exact h.2.2
